import Mathlib

/-!
Verification development for the cxx-reflection repository.

Part 1 embeds the compile-time fuzzy type matcher of
`src/include/noaland_lib.h` (namespace `noaland`): the trait `is_a<X, Y>`
with its wildcard type `i_dont_care`, the trait `is_i_dont_care`, the
variadic `conjunction`, and the partial specialization
`is_a<X<SUB_X...>, Y<SUB_Y...>>`.

C++ type descriptions are modelled by the mutual inductive `CType`/`CArgs`:
a type is either a concrete non-template type (`atom`, indexed by a numeral
standing for `int`, `Foo`, ...), the wildcard struct `noaland::i_dont_care`
(`wild`), or an application of a generic template symbol (a numeral standing
for `std::vector`, `some_template`, ...) to a list of type arguments.

Template instantiation can fail to compile; the embedding makes `is_a`
return `Option Bool`, where `none` stands for "the instantiation is
ill-formed" (this arises exactly when the pack expansion
`is_a_v<SUB_X, SUB_Y>...` zips parameter packs of different lengths,
which is a hard error in C++, not SFINAE).
-/

namespace noaland

mutual
inductive CType : Type where
  | atom : Nat → CType
  | wild : CType
  | app : Nat → CArgs → CType

inductive CArgs : Type where
  | nil : CArgs
  | cons : CType → CArgs → CArgs
end

mutual
def ctypeDecEq : (x y : CType) → Decidable (x = y)
  | CType.atom a, CType.atom b =>
    match Nat.decEq a b with
    | isTrue h => isTrue (by rw [h])
    | isFalse h => isFalse (by intro hc; cases hc; exact h rfl)
  | CType.atom _, CType.wild => isFalse (by intro hc; cases hc)
  | CType.atom _, CType.app _ _ => isFalse (by intro hc; cases hc)
  | CType.wild, CType.atom _ => isFalse (by intro hc; cases hc)
  | CType.wild, CType.wild => isTrue rfl
  | CType.wild, CType.app _ _ => isFalse (by intro hc; cases hc)
  | CType.app _ _, CType.atom _ => isFalse (by intro hc; cases hc)
  | CType.app _ _, CType.wild => isFalse (by intro hc; cases hc)
  | CType.app s xs, CType.app t ys =>
    match Nat.decEq s t, cargsDecEq xs ys with
    | isTrue h1, isTrue h2 => isTrue (by rw [h1, h2])
    | isFalse h1, _ => isFalse (by intro hc; cases hc; exact h1 rfl)
    | _, isFalse h2 => isFalse (by intro hc; cases hc; exact h2 rfl)

def cargsDecEq : (xs ys : CArgs) → Decidable (xs = ys)
  | CArgs.nil, CArgs.nil => isTrue rfl
  | CArgs.nil, CArgs.cons _ _ => isFalse (by intro hc; cases hc)
  | CArgs.cons _ _, CArgs.nil => isFalse (by intro hc; cases hc)
  | CArgs.cons x xs, CArgs.cons y ys =>
    match ctypeDecEq x y, cargsDecEq xs ys with
    | isTrue h1, isTrue h2 => isTrue (by rw [h1, h2])
    | isFalse h1, _ => isFalse (by intro hc; cases hc; exact h1 rfl)
    | _, isFalse h2 => isFalse (by intro hc; cases hc; exact h2 rfl)
end

instance : DecidableEq CType := ctypeDecEq
instance : DecidableEq CArgs := cargsDecEq

/-- `noaland::is_i_dont_care<T>`: `std::false_type` except at the
specialization for `noaland::i_dont_care`. -/
def is_i_dont_care : CType → Bool
  | CType.wild => true
  | _ => false

/-- `noaland::conjunction<bool... R>`: the fold `(R && ...)` over the
already-computed boolean pack. -/
def conjunction : List Bool → Bool
  | [] => true
  | b :: r => b && conjunction r

mutual
/-- The primary template `is_a<X, Y>` returns true iff either side is
`i_dont_care` or `std::is_same_v<X, Y>`; the partial specialization
`is_a<X<SUB_X...>, Y<SUB_Y...>>` (chosen whenever both arguments are
template applications, with the two template-template parameters deduced
independently) returns `conjunction` over the pack
`is_a_v<SUB_X, SUB_Y>...`. `none` = ill-formed instantiation. -/
def is_a : CType → CType → Option Bool
  | CType.app _ xs, CType.app _ ys => Option.map conjunction (is_a_pack xs ys)
  | x, y => some (is_i_dont_care x || is_i_dont_care y || decide (x = y))

/-- The pack expansion `is_a_v<SUB_X, SUB_Y>...`: ill-formed (`none`) when
the two packs have different lengths or any element instantiation is
ill-formed; otherwise the list of the element results. -/
def is_a_pack : CArgs → CArgs → Option (List Bool)
  | CArgs.nil, CArgs.nil => some []
  | CArgs.cons x xs, CArgs.cons y ys =>
    match is_a x y, is_a_pack xs ys with
    | some b, some r => some (b :: r)
    | _, _ => none
  | _, _ => none
end

/-- `noaland::is_a_v<X, Y>`. -/
def is_a_v (x y : CType) : Option Bool := is_a x y

/-- Conversion from Lean lists of type arguments to the pack type. -/
def ofList : List CType → CArgs
  | [] => CArgs.nil
  | t :: r => CArgs.cons t (ofList r)

/-- Length of a template argument pack. -/
def CArgs.length : CArgs → Nat
  | CArgs.nil => 0
  | CArgs.cons _ r => r.length + 1

end noaland

/-!
Part 2 embeds the reflection registry of `src/include/cxx_reflection.h`
(namespace `refl`) together with its instantiation on the test fixture
`Foo { int i; double d; }` of `src/tests/reflection_tests.cpp`.

A `reflected_field<FT>` stores only a name and a byte offset at run time
(`FT` has no runtime representation), so a stored descriptor is modelled as
`meta_field`. The `type<T, FIELDS_TYPES...>` constructor emplaces the
descriptors into the `fields` vector one by one, left to right, via the fold
expression; this is modelled by `type_ctor` folding `emplace_back` over the
registration list.

An instance of the reflected struct lives in raw memory addressed by byte
offsets; it is modelled as `Mem`, a function from offsets to stored values.
`offsetof` values are platform constants; the model uses `foo_i_offset = 0`
and `foo_d_offset = 8` (the offsets of `Foo::i` and `Foo::d` on an LP64
layout — the development only relies on their being distinct). `double`
values are never computed with, only stored and compared, so they are
modelled as exact rationals.
-/

namespace refl

/-- A runtime value written through `set_field_value` (the reinterpreted
store `*reinterpret_cast<FT*>(...) = value`). -/
inductive Value : Type where
  | intV : Int → Value
  | doubleV : Rat → Value
deriving DecidableEq

/-- The runtime data of a `reflected_field` (name + offset, as returned by
`get_name` / `get_offset`). -/
structure meta_field : Type where
  name : String
  offset : Nat
deriving DecidableEq

/-- The constructor `type::type(F... field)`: the fold expression
`(fields.emplace_back(...), ...)` appends each registered descriptor to the
initially empty `fields` vector, left to right. -/
def type_ctor (regs : List meta_field) : List meta_field :=
  regs.foldl (fun fs f => fs ++ [f]) []

/-- Raw instance memory: what value sits at each byte offset. -/
def Mem : Type := Nat → Value

/-- `type::set_field_value(instance, field_name, value)`: scan `fields` in
order; at the first descriptor whose `get_name()` equals `field_name`, store
`value` at that descriptor's offset in the instance and return; if the scan
falls off the end, return with no write. -/
def set_field_value (fields : List meta_field) (mem : Mem)
    (field_name : String) (value : Value) : Mem :=
  match fields with
  | [] => mem
  | f :: fs =>
    if f.name = field_name then
      fun off => if off = f.offset then value else mem off
    else
      set_field_value fs mem field_name value

/-- `offsetof(Foo, i)`. -/
def foo_i_offset : Nat := 0

/-- `offsetof(Foo, d)`. -/
def foo_d_offset : Nat := 8

/-- `refl::type<Foo, decltype(Foo::i), decltype(Foo::d)>
refl_foo{refl_field(i), refl_field(d)};` — the stored descriptor
sequence. -/
def refl_foo : List meta_field :=
  type_ctor [⟨"i", foo_i_offset⟩, ⟨"d", foo_d_offset⟩]

/-- `Foo f{};` — zero-initialized instance memory. -/
def foo_zero : Mem := fun _ => Value.intV 0

/-!
The compile-time field-type catalog
`using field_types_variant = std::variant<type_identity<FIELDS_TYPES>...>;`
is a C++ type built from the field types; it is modelled inside the `CType`
universe of Part 1, with dedicated template symbols for `std::variant` and
`refl::type_identity`.
-/

/-- Template symbol standing for `std::variant`. -/
def variant_sym : Nat := 90

/-- Template symbol standing for `refl::type_identity`. -/
def type_identity_sym : Nat := 91

/-- `refl::type_identity<T>`. -/
def type_identity (t : noaland.CType) : noaland.CType :=
  noaland.CType.app type_identity_sym (noaland.CArgs.cons t noaland.CArgs.nil)

/-- The pack expansion `type_identity<FIELDS_TYPES>...` inside the variant:
one alternative per registered field, in registration order. -/
def field_types_pack : List noaland.CType → noaland.CArgs
  | [] => noaland.CArgs.nil
  | ft :: r => noaland.CArgs.cons (type_identity ft) (field_types_pack r)

/-- `type<T, FIELDS_TYPES...>::field_types_variant`. -/
def field_types_variant (fts : List noaland.CType) : noaland.CType :=
  noaland.CType.app variant_sym (field_types_pack fts)

/-- Concrete atoms for the field types of the test fixture `Foo`. -/
def int_ty : noaland.CType := noaland.CType.atom 1

/-- Concrete atom standing for `double`. -/
def double_ty : noaland.CType := noaland.CType.atom 2

end refl

/-!
Helper lemmas about the matcher. They are shared by several of the claim
theorems below.
-/

namespace noaland

theorem ofList_length : ∀ xs : List CType, (ofList xs).length = xs.length
  | [] => rfl
  | _ :: r => by simp [ofList, CArgs.length, ofList_length r]

/-- `is_a_v<X, i_dont_care>` is true for every `X`: `i_dont_care` is not a
template application, so the primary template applies. -/
theorem is_a_wild_right : ∀ x : CType, is_a x CType.wild = some true
  | CType.atom _ => by simp [is_a, is_i_dont_care]
  | CType.wild => by simp [is_a, is_i_dont_care]
  | CType.app _ _ => by simp [is_a, is_i_dont_care]

/-- `is_a_v<i_dont_care, Y>` is true for every `Y`. -/
theorem is_a_wild_left : ∀ y : CType, is_a CType.wild y = some true
  | CType.atom _ => by simp [is_a, is_i_dont_care]
  | CType.wild => by simp [is_a, is_i_dont_care]
  | CType.app _ _ => by simp [is_a, is_i_dont_care]

theorem conjunction_replicate_true : ∀ n : Nat, conjunction (List.replicate n true) = true
  | 0 => rfl
  | n + 1 => by simp [List.replicate, conjunction, conjunction_replicate_true n]

mutual
theorem is_a_refl_lemma : ∀ x : CType, is_a x x = some true
  | CType.atom a => by simp [is_a, is_i_dont_care]
  | CType.wild => by simp [is_a, is_i_dont_care]
  | CType.app s xs => by
    simp [is_a, is_a_pack_refl_lemma xs, conjunction_replicate_true]

theorem is_a_pack_refl_lemma :
    ∀ xs : CArgs, is_a_pack xs xs = some (List.replicate xs.length true)
  | CArgs.nil => rfl
  | CArgs.cons x xs => by
    simp [is_a_pack, is_a_refl_lemma x, is_a_pack_refl_lemma xs, CArgs.length,
      List.replicate]
end

mutual
theorem is_a_symm_lemma : ∀ x y : CType, is_a x y = is_a y x
  | CType.app s xs, CType.app t ys => by
    simp [is_a, is_a_pack_symm_lemma xs ys]
  | CType.atom a, CType.atom b => by
    simp [is_a, is_i_dont_care, eq_comm]
  | CType.atom a, CType.wild => by simp [is_a, is_i_dont_care]
  | CType.atom a, CType.app t ys => by simp [is_a, is_i_dont_care]
  | CType.wild, CType.atom b => by simp [is_a, is_i_dont_care]
  | CType.wild, CType.wild => rfl
  | CType.wild, CType.app t ys => by simp [is_a, is_i_dont_care]
  | CType.app s xs, CType.atom b => by simp [is_a, is_i_dont_care]
  | CType.app s xs, CType.wild => by simp [is_a, is_i_dont_care]

theorem is_a_pack_symm_lemma : ∀ xs ys : CArgs, is_a_pack xs ys = is_a_pack ys xs
  | CArgs.nil, CArgs.nil => rfl
  | CArgs.nil, CArgs.cons _ _ => rfl
  | CArgs.cons _ _, CArgs.nil => rfl
  | CArgs.cons x xs, CArgs.cons y ys => by
    simp [is_a_pack]
    rw [is_a_symm_lemma x y, is_a_pack_symm_lemma xs ys]
end

/-- One step of the pack expansion: the conjunction over a nonempty pack is
true exactly when the head instantiation yields true and the conjunction
over the tail pack yields true (and both are well-formed). -/
theorem is_a_pack_cons_true (x y : CType) (xs ys : CArgs) :
    Option.map conjunction (is_a_pack (CArgs.cons x xs) (CArgs.cons y ys)) = some true ↔
      (is_a x y = some true ∧ Option.map conjunction (is_a_pack xs ys) = some true) := by
  cases h1 : is_a x y with
  | none => simp [is_a_pack, h1]
  | some v =>
    cases h2 : is_a_pack xs ys with
    | none => simp [is_a_pack, h1, h2]
    | some l => simp [is_a_pack, h1, h2, conjunction, Bool.and_eq_true]

theorem is_a_pack_all_lemma :
    ∀ as bs : List CType, as.length = bs.length →
      (Option.map conjunction (is_a_pack (ofList as) (ofList bs)) = some true ↔
        ∀ p ∈ as.zip bs, is_a p.1 p.2 = some true)
  | [], [], _ => by simp [ofList, is_a_pack, conjunction]
  | [], _ :: _, h => by simp at h
  | _ :: _, [], h => by simp at h
  | a :: as, b :: bs, h => by
    have ih := is_a_pack_all_lemma as bs (by simpa using h)
    have hc := is_a_pack_cons_true a b (ofList as) (ofList bs)
    simp only [List.zip_cons_cons, List.forall_mem_cons]
    rw [show ofList (a :: as) = CArgs.cons a (ofList as) from rfl,
      show ofList (b :: bs) = CArgs.cons b (ofList bs) from rfl, hc, ih]

mutual
/-- Wildcard-freeness of a type description: no occurrence of
`noaland::i_dont_care` at any nesting depth. -/
def no_wildcard : CType → Bool
  | CType.atom _ => true
  | CType.wild => false
  | CType.app _ xs => no_wildcard_args xs

def no_wildcard_args : CArgs → Bool
  | CArgs.nil => true
  | CArgs.cons x xs => no_wildcard x && no_wildcard_args xs
end

mutual
/-- Erasure of the head template symbols of a type description: every
generic application keeps its argument list but forgets which template it
applies. Two descriptions with equal erasures differ at most in the
template symbols at their application nodes. -/
def erase_heads : CType → CType
  | CType.atom a => CType.atom a
  | CType.wild => CType.wild
  | CType.app _ xs => CType.app 0 (erase_heads_args xs)

def erase_heads_args : CArgs → CArgs
  | CArgs.nil => CArgs.nil
  | CArgs.cons x xs => CArgs.cons (erase_heads x) (erase_heads_args xs)
end

mutual
theorem is_a_erase_heads_lemma :
    ∀ x y : CType, no_wildcard x = true → no_wildcard y = true →
      (is_a x y = some true ↔ erase_heads x = erase_heads y)
  | CType.atom a, CType.atom b, _, _ => by
    simp [is_a, is_i_dont_care, erase_heads]
  | CType.atom _, CType.wild, _, hy => by simp [no_wildcard] at hy
  | CType.wild, _, hx, _ => by simp [no_wildcard] at hx
  | CType.atom a, CType.app t ys, _, _ => by
    simp [is_a, is_i_dont_care, erase_heads]
  | CType.app s xs, CType.atom b, _, _ => by
    simp [is_a, is_i_dont_care, erase_heads]
  | CType.app s xs, CType.wild, _, hy => by simp [no_wildcard] at hy
  | CType.app s xs, CType.app t ys, hx, hy => by
    have hp := is_a_pack_erase_lemma xs ys (by simpa [no_wildcard] using hx)
      (by simpa [no_wildcard] using hy)
    simpa [is_a, erase_heads] using hp

theorem is_a_pack_erase_lemma :
    ∀ xs ys : CArgs, no_wildcard_args xs = true → no_wildcard_args ys = true →
      (Option.map conjunction (is_a_pack xs ys) = some true ↔
        erase_heads_args xs = erase_heads_args ys)
  | CArgs.nil, CArgs.nil, _, _ => by simp [is_a_pack, conjunction, erase_heads_args]
  | CArgs.nil, CArgs.cons _ _, _, _ => by simp [is_a_pack, erase_heads_args]
  | CArgs.cons _ _, CArgs.nil, _, _ => by simp [is_a_pack, erase_heads_args]
  | CArgs.cons x xs, CArgs.cons y ys, hx, hy => by
    rw [no_wildcard_args, Bool.and_eq_true] at hx hy
    rw [is_a_pack_cons_true, is_a_erase_heads_lemma x y hx.1 hy.1,
      is_a_pack_erase_lemma xs ys hx.2 hy.2]
    simp [erase_heads_args]
end

end noaland

namespace refl

theorem field_types_pack_map : ∀ fts : List noaland.CType,
    field_types_pack fts = noaland.ofList (fts.map type_identity)
  | [] => rfl
  | f :: r => by simp [field_types_pack, noaland.ofList, field_types_pack_map r]

theorem field_types_pack_length : ∀ fts : List noaland.CType,
    (field_types_pack fts).length = fts.length
  | [] => rfl
  | f :: r => by
    simp [field_types_pack, noaland.CArgs.length, field_types_pack_length r]

end refl

/-!
The claim theorems.
-/

open noaland refl

/-- C1: for two applications of the same generic template to argument
sequences of equal arity, `is_a_v` holds iff `is_a_v` holds at every
argument position (the recursion reaching through arbitrarily nested
instantiations); an empty argument list is vacuously true (the `as = bs = []`
instance, where the right-hand side is an empty conjunction). -/
theorem is_a_same_template_iff_argwise (tpl : Nat) (as bs : List CType)
    (h : as.length = bs.length) :
    is_a_v (CType.app tpl (ofList as)) (CType.app tpl (ofList bs)) = some true ↔
      ∀ p ∈ as.zip bs, is_a_v p.1 p.2 = some true := by
  have hall := is_a_pack_all_lemma as bs h
  simpa [is_a_v, is_a] using hall

/-- Witness for C1 at a concrete input of arity 2. -/
theorem is_a_same_template_iff_argwise_witness :
    ([CType.atom 1, CType.wild].length = [CType.atom 1, CType.atom 2].length) ∧
      (is_a_v (CType.app 7 (ofList [CType.atom 1, CType.wild]))
          (CType.app 7 (ofList [CType.atom 1, CType.atom 2])) = some true ↔
        ∀ p ∈ [CType.atom 1, CType.wild].zip [CType.atom 1, CType.atom 2],
          is_a_v p.1 p.2 = some true) :=
  ⟨rfl, is_a_same_template_iff_argwise 7 _ _ rfl⟩

/-- C2: the wildcard `noaland::i_dont_care` absorbs on both sides for every
type `X`, including template instantiations, and a wildcard nested two
levels deep inside matching nested generics still yields true through the
recursive case. -/
theorem is_a_wildcard_absorption (x : CType) (t : Nat) :
    (is_a_v x CType.wild = some true ∧ is_a_v CType.wild x = some true) ∧
      is_a_v (CType.app t (ofList [CType.app t (ofList [x])]))
        (CType.app t (ofList [CType.app t (ofList [CType.wild])])) = some true := by
  refine ⟨⟨is_a_wild_right x, is_a_wild_left x⟩, ?_⟩
  simp [is_a_v, is_a, ofList, is_a_pack, is_a_wild_right x, conjunction]

/-- C3: the registry for `Foo { int i; double d; }` stores exactly the two
descriptors named "i" then "d" in registration order, and
`set_field_value(f, "i", 10)` followed by `set_field_value(f, "d", 3.14)`
leaves `f.i == 10` and `f.d == 3.14`. -/
theorem refl_foo_round_trip :
    refl_foo.map meta_field.name = ["i", "d"] ∧ refl_foo.length = 2 ∧
      set_field_value refl_foo
          (set_field_value refl_foo foo_zero "i" (Value.intV 10))
          "d" (Value.doubleV (3.14 : Rat)) foo_i_offset = Value.intV 10 ∧
      set_field_value refl_foo
          (set_field_value refl_foo foo_zero "i" (Value.intV 10))
          "d" (Value.doubleV (3.14 : Rat)) foo_d_offset =
        Value.doubleV (3.14 : Rat) := by
  exact ⟨rfl, rfl, rfl, rfl⟩

/-- C4 counterexample: the claim says `is_a_v<TplA<X>, TplB<X>>` is false
for distinct templates and non-wildcard `X`, but the partial specialization
never compares the deduced template-template parameters, so the code
evaluates it to true (templates 7 and 8, `X` the non-wildcard atom 1). -/
theorem is_a_different_templates_counterexample :
    CType.atom 1 ≠ CType.wild ∧
      is_a_v (CType.app 7 (ofList [CType.atom 1]))
        (CType.app 8 (ofList [CType.atom 1])) = some true := by
  decide

/-- C4 amended: for any two template symbols (equal or different) applied to
the same argument list, `is_a_v` is true — the head template symbol never
influences the result; two applications compare by arguments alone. -/
theorem is_a_ignores_template_head (s t : Nat) (args : CArgs) :
    is_a_v (CType.app s args) (CType.app t args) = some true := by
  simp [is_a_v, is_a, is_a_pack_refl_lemma args, conjunction_replicate_true]

/-- C5: at an arity mismatch (`Tpl<i_dont_care>` against `Tpl<int, double>`)
the instantiation is ill-formed — the pack expansion
`is_a_v<SUB_X, SUB_Y>...` zips packs of lengths 1 and 2 — so the code
fails to compile (`none`) instead of returning false as specified. -/
theorem is_a_arity_mismatch_ill_formed :
    is_a_v (CType.app 7 (ofList [CType.wild]))
      (CType.app 7 (ofList [CType.atom 1, CType.atom 2])) = none := by
  decide

/-- C6: `set_field_value` with a field name matching no registered
descriptor is a silent no-op: the scan falls off the end of `fields` and
the instance memory is returned unchanged. -/
theorem set_field_value_unknown_name_noop (fs : List meta_field) (mem : Mem)
    (field_name : String) (v : Value)
    (h : ∀ f ∈ fs, f.name ≠ field_name) :
    set_field_value fs mem field_name v = mem := by
  induction fs with
  | nil => rfl
  | cons f fs ih =>
    rw [set_field_value, if_neg (h f (List.mem_cons_self f fs))]
    exact ih fun g hg => h g (List.mem_cons_of_mem f hg)

/-- Witness for C6 on the `Foo` registry and an unknown name. -/
theorem set_field_value_unknown_name_noop_witness :
    (∀ f ∈ refl_foo, f.name ≠ "nonexistent") ∧
      set_field_value refl_foo foo_zero "nonexistent" (Value.intV 5) = foo_zero :=
  ⟨by decide,
    set_field_value_unknown_name_noop refl_foo foo_zero "nonexistent"
      (Value.intV 5) (by decide)⟩

/-- C7: `is_a_v<X, X>` is true for every type description `X`, including
generic template instantiations. -/
theorem is_a_reflexive (x : CType) : is_a_v x x = some true :=
  is_a_refl_lemma x

/-- C8 counterexample: both sides are wildcard-free and distinct, yet
`is_a_v` evaluates to true (distinct template symbols 2 and 3 applied to
the same argument), so on the wildcard-free subset the relation does not
reduce to identity. -/
theorem is_a_wildcard_free_not_identity :
    no_wildcard (CType.app 2 (ofList [CType.atom 5])) = true ∧
      no_wildcard (CType.app 3 (ofList [CType.atom 5])) = true ∧
      is_a_v (CType.app 2 (ofList [CType.atom 5]))
        (CType.app 3 (ofList [CType.atom 5])) = some true ∧
      CType.app 2 (ofList [CType.atom 5]) ≠ CType.app 3 (ofList [CType.atom 5]) := by
  decide

/-- C8 amended: on the wildcard-free subset `is_a_v` holds iff the two
descriptions are identical up to the head template symbols — equal after
erasing which template each application node applies (same nesting
structure, equal arities, identical concrete leaves). -/
theorem is_a_wildcard_free_identity_up_to_heads (x y : CType)
    (hx : no_wildcard x = true) (hy : no_wildcard y = true) :
    is_a_v x y = some true ↔ erase_heads x = erase_heads y :=
  is_a_erase_heads_lemma x y hx hy

/-- Witness for the amended C8 at a concrete wildcard-free pair. -/
theorem is_a_wildcard_free_identity_up_to_heads_witness :
    no_wildcard (CType.app 4 (ofList [CType.atom 6])) = true ∧
      no_wildcard (CType.atom 6) = true ∧
      (is_a_v (CType.app 4 (ofList [CType.atom 6])) (CType.atom 6) = some true ↔
        erase_heads (CType.app 4 (ofList [CType.atom 6])) =
          erase_heads (CType.atom 6)) :=
  ⟨by decide, by decide,
    is_a_wildcard_free_identity_up_to_heads _ _ (by decide) (by decide)⟩

/-- C9: `field_types_variant` is the tagged union (`std::variant` symbol)
whose alternatives are `type_identity<Fi>` in registration order, one slot
per registered field; duplicate field types keep their own slots (the
`[int, int]` instance), and on the `Foo` fixture it is
`variant<type_identity<int>, type_identity<double>>` as the test asserts. -/
theorem field_types_variant_spec (fts : List CType) :
    field_types_variant fts =
        CType.app variant_sym (ofList (fts.map type_identity)) ∧
      (field_types_pack fts).length = fts.length ∧
      (field_types_pack [int_ty, int_ty]).length = 2 ∧
      field_types_variant [int_ty, double_ty] =
        CType.app variant_sym (ofList [type_identity int_ty, type_identity double_ty]) := by
  refine ⟨?_, field_types_pack_length fts, rfl, rfl⟩
  rw [field_types_variant, field_types_pack_map fts]

/-- C10: the match relation is symmetric: `is_a_v<X, Y>` and `is_a_v<Y, X>`
agree on every pair of type descriptions (including agreeing on being
ill-formed). -/
theorem is_a_symmetric (x y : CType) : is_a_v x y = is_a_v y x :=
  is_a_symm_lemma x y
